import Mathlib

/-!
Verification of the sourcing pipeline (enrichment, scoring, storage,
orchestration) of the Chicago-Sourcing repository.

The Python code is shallowly embedded as executable Lean definitions:

* dictionaries with optional keys become a `Prospect` structure with
  `Option` fields (`none` = key absent); Python truthiness of a string
  field is `blank` (absent or empty);
* network I/O (the GitHub users API) is an oracle `Env`; the external
  rating call is an `Except String String` (error = raised exception);
* `datetime.now()` is a `now : String` parameter;
* the Python regexes of `auto_enrich.py` are implemented as executable
  character-list matchers with the same leftmost / greedy / backtracking
  semantics, including `\b` word boundaries and the `$` end-or-final
  newline rule;
* string primitives (`lower`, `strip`, `split`, slicing, `join`,
  `int(...)`) are re-implemented over `List Char` so that every
  definition evaluates by `decide`; they model the Python operations on
  the ASCII texts the pipeline handles;
* `signals` is a `List String`: every collector in the repository emits
  string signals, so the legacy dict-signal branches are unreachable and
  not modelled.
-/

namespace Sourcing

/-! ## Python string primitives -/

/-- Python `s.lower()` (ASCII). -/
def pyLower (s : String) : String := String.mk (s.toList.map Char.toLower)

/-- Python `s.strip()` on a character list. -/
def trimList (cs : List Char) : List Char :=
  ((cs.dropWhile Char.isWhitespace).reverse.dropWhile Char.isWhitespace).reverse

/-- Python `s.strip()` (ASCII whitespace). -/
def pyStrip (s : String) : String := String.mk (trimList s.toList)

/-- Python `s[:n]` (first `n` code points). -/
def pyTake (s : String) (n : Nat) : String := String.mk (s.toList.take n)

/-- Python `dict.get(key, '')` for an optional string field. -/
def pyStr (o : Option String) : String := o.getD ""

/-- Python falsiness of an optional string field: key absent or value empty. -/
def blank (o : Option String) : Bool := (o.getD "").toList.isEmpty

/-- Python `s.split(sep)` for a one-character separator. -/
def splitChar (sep : Char) : List Char → List (List Char)
  | [] => [[]]
  | c :: cs =>
      let r := splitChar sep cs
      if c = sep then [] :: r
      else
        match r with
        | h :: t => (c :: h) :: t
        | [] => [[c]]

/-- The characters after the first occurrence of `sep`, if `sep` occurs. -/
def afterFirst (sep : Char) : List Char → Option (List Char)
  | [] => none
  | c :: cs => if c = sep then some cs else afterFirst sep cs

/-- Drop an expected literal pattern from the front; `some rest` on success. -/
def dropPat : List Char → List Char → Option (List Char)
  | [], rest => some rest
  | _ :: _, [] => none
  | p :: ps, c :: cs => if p = c then dropPat ps cs else none

/-- Python `needle in haystack` on character lists. -/
def listContainsSub (n : List Char) : List Char → Bool
  | [] => n.isEmpty
  | c :: cs => (dropPat n (c :: cs)).isSome || listContainsSub n cs

/-- Python `needle in haystack` for strings. -/
def containsSub (needle hay : String) : Bool := listContainsSub needle.toList hay.toList

/-- Case-insensitive literal match at the front (ASCII), returning the rest. -/
def ciPref : List Char → List Char → Option (List Char)
  | [], rest => some rest
  | _ :: _, [] => none
  | p :: ps, c :: cs => if p.toLower = c.toLower then ciPref ps cs else none

/-- Case-insensitive substring test (ASCII). -/
def ciSubstr (n : List Char) : List Char → Bool
  | [] => n.isEmpty
  | c :: cs => (ciPref n (c :: cs)).isSome || ciSubstr n cs

/-- Digit-string value for Python `int()`: digits with single underscores
allowed between digit groups.  `last` records whether the previous
character was a digit. -/
def parseDigits : List Char → Nat → Bool → Option Nat
  | [], acc, last => if last then some acc else none
  | c :: cs, acc, last =>
      if c.isDigit then parseDigits cs (acc * 10 + (c.toNat - 48)) true
      else if c = '_' ∧ last then parseDigits cs acc false
      else none

/-- Python `int(s)`: surrounding whitespace, optional sign, decimal digits. -/
def pyInt (s : String) : Option Int :=
  match trimList s.toList with
  | '+' :: rest => (parseDigits rest 0 false).map Int.ofNat
  | '-' :: rest => (parseDigits rest 0 false).map (fun n => -(n : Int))
  | cs => (parseDigits cs 0 false).map Int.ofNat

theorem toList_append (a b : String) : (a ++ b).toList = a.toList ++ b.toList := by
  cases a
  cases b
  rfl

/-! ## LinkedIn extraction (`AutoEnricher._extract_linkedin_from_text`)

Python regex `linkedin\.com/in/([a-zA-Z0-9-]+)` under `re.search`:
leftmost occurrence of the literal followed by a maximal nonempty run of
slug characters. -/

/-- A character of the slug class `[a-zA-Z0-9-]`. -/
def isSlugChar (c : Char) : Bool := c.isAlphanum || c = '-'

/-- The literal part of the LinkedIn pattern. -/
def lnPat : List Char := "linkedin.com/in/".toList

/-- Maximal leading run of slug characters (the greedy `+` group). -/
def takeSlug : List Char → List Char
  | [] => []
  | c :: cs => if isSlugChar c then c :: takeSlug cs else []

/-- Leftmost match of the LinkedIn pattern: returns the captured slug. -/
def findLinkedin : List Char → Option (List Char)
  | [] => none
  | c :: cs =>
      match dropPat lnPat (c :: cs) with
      | some rest =>
          match takeSlug rest with
          | [] => findLinkedin cs
          | s => some s
      | none => findLinkedin cs

/-- `AutoEnricher._extract_linkedin_from_text`. -/
def extract_linkedin_from_text (text : String) : Option String :=
  if text.toList.isEmpty then none
  else
    match findLinkedin text.toList with
    | some slug => some ("https://www.linkedin.com/in/" ++ String.mk slug)
    | none => none

/-! ## Email validation (`AutoEnricher._is_valid_email`)

Python regex `^[A-Za-z0-9._%+-]+@[A-Za-z0-9.-]+\.[A-Z|a-z]{2,}$` under
`re.match`.  Note the source's character class `[A-Z|a-z]` literally
contains `'|'`, and `$` also matches just before a final newline. -/

/-- Local-part class `[A-Za-z0-9._%+-]`. -/
def isLocalChar (c : Char) : Bool :=
  c.isAlphanum || c = '.' || c = '_' || c = '%' || c = '+' || c = '-'

/-- Domain class `[A-Za-z0-9.-]`. -/
def isDomChar (c : Char) : Bool := c.isAlphanum || c = '.' || c = '-'

/-- TLD class `[A-Z|a-z]` (the `'|'` is literal in the source regex). -/
def isTldChar (c : Char) : Bool := c.isAlpha || c = '|'

/-- `$` in Python: end of string, or just before a single final newline. -/
def tailEnd : List Char → Bool
  | [] => true
  | ['\n'] => true
  | _ => false

/-- Matcher for `[A-Z|a-z]{2,}$` having already consumed `k` TLD characters. -/
def tldMatch : Nat → List Char → Bool
  | k, [] => decide (2 ≤ k)
  | k, c :: cs => (decide (2 ≤ k) && tailEnd (c :: cs)) || (isTldChar c && tldMatch (k + 1) cs)

/-- Matcher for `[A-Za-z0-9.-]+\.[A-Z|a-z]{2,}$` having consumed `k` domain
characters. -/
def domMatch : Nat → List Char → Bool
  | _, [] => false
  | k, c :: cs =>
      (decide (1 ≤ k) && decide (c = '.') && tldMatch 0 cs) || (isDomChar c && domMatch (k + 1) cs)

/-- Matcher for the full anchored email regex, having consumed `k` local
characters. -/
def localMatch : Nat → List Char → Bool
  | _, [] => false
  | k, c :: cs =>
      (decide (1 ≤ k) && decide (c = '@') && domMatch 0 cs) || (isLocalChar c && localMatch (k + 1) cs)

/-- `re.match` of the email format regex against the whole string. -/
def emailRegexMatch (s : String) : Bool := localMatch 0 s.toList

/-- Structural reading of `[A-Z|a-z]{2,}$`: a run of at least two TLD
characters followed by an admissible ending. -/
def TldOk (cs : List Char) : Prop :=
  ∃ t rest, cs = t ++ rest ∧ t.all isTldChar = true ∧ 2 ≤ t.length ∧ tailEnd rest = true

/-- Structural reading of `[A-Za-z0-9.-]+\.[A-Z|a-z]{2,}$`. -/
def DomOk (cs : List Char) : Prop :=
  ∃ d rest, cs = d ++ '.' :: rest ∧ d.all isDomChar = true ∧ 1 ≤ d.length ∧ TldOk rest

/-- Structural reading of the full anchored email regex. -/
def LocalOk (cs : List Char) : Prop :=
  ∃ l rest, cs = l ++ '@' :: rest ∧ l.all isLocalChar = true ∧ 1 ≤ l.length ∧ DomOk rest

/-- The `local-part@domain.tld` shape of the source's format regex: a
nonempty local part, `'@'`, a nonempty domain run, `'.'`, and a TLD of
at least two characters, up to an optional final newline. -/
def EmailShape (e : String) : Prop := LocalOk e.toList

/-- The deny-list of placeholder domains. -/
def invalid_domains : List String :=
  ["example.com", "test.com", "domain.com", "email.com", "mail.com", "placeholder.com"]

/-- Python `email.split('@')[1].lower() if '@' in email else ''`. -/
def pyDomain (email : String) : String :=
  if email.toList.contains '@' then
    pyLower (String.mk ((splitChar '@' email.toList).getD 1 []))
  else ""

/-- `AutoEnricher._is_valid_email`. -/
def is_valid_email (email : String) : Bool :=
  if email.toList.isEmpty then false
  else if invalid_domains.contains (pyDomain email) then false
  else emailRegexMatch email

/-! ## Email extraction (`AutoEnricher._extract_email_from_text`)

Python regex `\b[A-Za-z0-9._%+-]+@[A-Za-z0-9.-]+\.[A-Z|a-z]{2,}\b` under
`re.search`; `\b` is a boundary between word (`[A-Za-z0-9_]`) and
non-word positions. -/

/-- Word character for `\b` boundaries. -/
def isWordB (c : Char) : Bool := c.isAlphanum || c = '_'

/-- Word boundary between two (possibly absent) adjacent characters. -/
def isBoundary (prev next : Option Char) : Bool :=
  (match prev with | some c => isWordB c | none => false)
    != (match next with | some c => isWordB c | none => false)

/-- Greedy choice of the TLD run length for `[A-Z|a-z]{2,}\b`:
largest `j ≥ 2` such that the first `j` characters are TLD characters
and a word boundary follows. -/
def tldTry (cs : List Char) : Nat → Option Nat
  | 0 => none
  | j + 1 =>
      if 2 ≤ j + 1 ∧ (cs.take (j + 1)).all isTldChar
          ∧ isBoundary ((cs.take (j + 1)).getLast?) (cs.drop (j + 1)).head? then
        some (j + 1)
      else tldTry cs j

/-- Greedy choice of the split of `[A-Za-z0-9.-]+\.[A-Z|a-z]{2,}\b`:
`d` domain characters, a dot, then the TLD part; returns total consumed. -/
def domTry (cs : List Char) : Nat → Option Nat
  | 0 => none
  | d + 1 =>
      if (cs.take (d + 1)).all isDomChar ∧ (cs.drop (d + 1)).head? = some '.' then
        match tldTry (cs.drop (d + 2)) ((cs.drop (d + 2)).takeWhile isTldChar).length with
        | some t => some (d + 1 + 1 + t)
        | none => domTry cs d
      else domTry cs d

/-- Attempt to match the email regex starting exactly here; returns the
length of `group(0)` on success. -/
def emailAtPos (prev : Option Char) (cs : List Char) : Option Nat :=
  if isBoundary prev cs.head? then
    let l := (cs.takeWhile isLocalChar).length
    if l = 0 then none
    else
      match (cs.drop l).head? with
      | some '@' =>
          let rest := cs.drop (l + 1)
          match domTry rest (rest.takeWhile isDomChar).length with
          | some n => some (l + 1 + n)
          | none => none
      | _ => none
  else none

/-- Leftmost search of the email regex, tracking the previous character
for the leading `\b`. -/
def emailSearch : Option Char → List Char → Option String
  | _, [] => none
  | prev, c :: cs =>
      match emailAtPos prev (c :: cs) with
      | some n => some (String.mk ((c :: cs).take n))
      | none => emailSearch (some c) cs

/-- `AutoEnricher._extract_email_from_text`. -/
def extract_email_from_text (text : String) : Option String :=
  if text.toList.isEmpty then none
  else
    match emailSearch none text.toList with
    | some e => if is_valid_email e then some e else none
    | none => none

/-! ## Role inference regex (`AutoEnricher._infer_current_role`)

Python regex
`([\w\s]+(?:Engineer|Developer|Designer|PM|Manager|Director|Founder|CEO|CTO))[\s@]+at[\s@]+([\w\s]+)`
with `re.IGNORECASE` under `re.search`: leftmost start position, greedy
`[\w\s]+` with backtracking into the keyword alternation and separators. -/

/-- `\w`: word characters. -/
def isWordChar (c : Char) : Bool := c.isAlphanum || c = '_'

/-- `[\w\s]`. -/
def isWordOrWS (c : Char) : Bool := isWordChar c || c.isWhitespace

/-- `[\s@]`. -/
def isAtSep (c : Char) : Bool := c.isWhitespace || c = '@'

/-- The role keyword alternation, in source order. -/
def roleKeywords : List String :=
  ["Engineer", "Developer", "Designer", "PM", "Manager", "Director", "Founder", "CEO", "CTO"]

/-- Try each keyword case-insensitively at the front; rest on success. -/
def tryKw : List String → List Char → Option (List Char)
  | [], _ => none
  | k :: ks, cs =>
      match ciPref k.toList cs with
      | some rest => some rest
      | none => tryKw ks cs

/-- Backtracking over the second separator run `[\s@]+` (length `j`
downwards), then the greedy final group `([\w\s]+)`. -/
def tryTail2 (cs : List Char) : Nat → Option (List Char)
  | 0 => none
  | j + 1 =>
      let g2 := (cs.drop (j + 1)).takeWhile isWordOrWS
      if g2.isEmpty then tryTail2 cs j else some g2

/-- Backtracking over the first separator run `[\s@]+` (length `j`
downwards), then the literal `at` (case-insensitive), then the tail. -/
def tryMid (cs : List Char) : Nat → Option (List Char)
  | 0 => none
  | j + 1 =>
      match ciPref ['a', 't'] (cs.drop (j + 1)) with
      | some rest =>
          match tryTail2 rest (rest.takeWhile isAtSep).length with
          | some g2 => some g2
          | none => tryMid cs j
      | none => tryMid cs j

/-- Backtracking over the length `k` of the leading `[\w\s]+` (greedy,
so from the maximal run downwards), then the keyword alternation, then
the middle and tail; returns `(group1, group2)`. -/
def tryStart (cs : List Char) : Nat → Option (List Char × List Char)
  | 0 => none
  | k + 1 =>
      match tryKw roleKeywords (cs.drop (k + 1)) with
      | some rest =>
          match tryMid rest (rest.takeWhile isAtSep).length with
          | some g2 => some (cs.take (cs.length - rest.length), g2)
          | none => tryStart cs k
      | none => tryStart cs k

/-- `re.search` of the role pattern: leftmost start position wins. -/
def searchRole : List Char → Option (String × String)
  | [] => none
  | c :: cs =>
      match tryStart (c :: cs) ((c :: cs).takeWhile isWordOrWS).length with
      | some (g1, g2) => some (String.mk g1, String.mk g2)
      | none => searchRole cs

/-! ## Data model -/

/-- The fields of a GitHub users-API profile the enricher reads
(`response.json()` in `auto_enrich.py`). -/
structure GhProfile where
  email : Option String := none
  bio : Option String := none
  blog : Option String := none
  company : Option String := none
  location : Option String := none
  twitter_username : Option String := none
  public_repos : Option Int := none
  followers : Option Int := none
  created_at : Option String := none
deriving DecidableEq, Repr

/-- The nested record `_enrich_github` attaches under `github_enrichment`. -/
structure GithubEnrichment where
  bio : Option String := none
  company : Option String := none
  location : Option String := none
  blog : Option String := none
  twitter : Option String := none
  public_repos : Option Int := none
  followers : Option Int := none
  created_at : Option String := none
deriving DecidableEq, Repr

/-- The record `_enrich_twitter` attaches under `twitter_enrichment`. -/
structure TwitterEnrichment where
  handle : String
  url : String
deriving DecidableEq, Repr

/-- The network oracle: `github u` is the parsed 200-response of
`GET /users/u`, or `none` for a failure / non-200 status. -/
structure Env where
  github : String → Option GhProfile

/-- A candidate record: one optional field per dictionary key the
pipeline reads or writes (`none` = key absent). -/
structure Prospect where
  name : Option String := none
  source : Option String := none
  email : Option String := none
  location : Option String := none
  company : Option String := none
  title : Option String := none
  linkedin_url : Option String := none
  twitter_handle : Option String := none
  twitter_url : Option String := none
  github_username : Option String := none
  github_url : Option String := none
  blog : Option String := none
  website : Option String := none
  bio : Option String := none
  signals : List String := []
  github_enrichment : Option GithubEnrichment := none
  twitter_enrichment : Option TwitterEnrichment := none
  current_company : Option String := none
  current_title : Option String := none
  overall_score : Option Int := none
  founder_score : Option Int := none
  thesis_fit_score : Option Int := none
  timing_score : Option Int := none
  signal_strength_score : Option Int := none
  priority : Option String := none
  reasoning : Option String := none
deriving DecidableEq, Repr

/-! ## Enricher (`AutoEnricher`) -/

/-- Scan the signals for the first extractable email
(the string-signal arm of `_find_email`). -/
def scanEmails : List String → Option String
  | [] => none
  | s :: ss =>
      match extract_email_from_text s with
      | some e => some e
      | none => scanEmails ss

/-- `AutoEnricher._find_email`: GitHub profile email first (if the
username is set, the fetch succeeds and the email validates), then the
signals. -/
def find_email (env : Env) (p : Prospect) : Option String :=
  let fromGh : Option String :=
    match p.github_username with
    | some u =>
        if u.toList.isEmpty then none
        else
          match env.github u with
          | some prof =>
              match prof.email with
              | some em =>
                  if em.toList.isEmpty then none
                  else if is_valid_email em then some em else none
              | none => none
          | none => none
    | none => none
  match fromGh with
  | some em => some em
  | none => scanEmails p.signals

/-- Scan the signals for the first LinkedIn URL
(the string-signal arm of `_find_linkedin`). -/
def scanLinkedins : List String → Option String
  | [] => none
  | s :: ss =>
      match extract_linkedin_from_text s with
      | some l => some l
      | none => scanLinkedins ss

/-- `AutoEnricher._find_linkedin`: the GitHub profile's bio and blog
fields first, then the signals. -/
def find_linkedin (env : Env) (p : Prospect) : Option String :=
  let fromGh : Option String :=
    match p.github_username with
    | some u =>
        if u.toList.isEmpty then none
        else
          match env.github u with
          | some prof =>
              extract_linkedin_from_text ((prof.bio.getD "") ++ " " ++ (prof.blog.getD ""))
          | none => none
    | none => none
  match fromGh with
  | some l => some l
  | none => scanLinkedins p.signals

/-- The record built by `_enrich_github` from a 200 profile response. -/
def ghToEnrichment (prof : GhProfile) : GithubEnrichment :=
  { bio := prof.bio, company := prof.company, location := prof.location,
    blog := prof.blog, twitter := prof.twitter_username,
    public_repos := prof.public_repos, followers := prof.followers,
    created_at := prof.created_at }

/-- Python `s.strip('@')`: remove `'@'` from both ends. -/
def stripAtChars (s : String) : String :=
  String.mk (((s.toList.dropWhile (fun c => c = '@')).reverse.dropWhile
    (fun c => c = '@')).reverse)

/-- `AutoEnricher._enrich_twitter`. -/
def enrich_twitter (handle : String) : TwitterEnrichment :=
  { handle := stripAtChars handle, url := "https://twitter.com/" ++ stripAtChars handle }

/-- The signals loop of `_infer_current_role`: the first signal whose
text matches the role pattern overwrites both company and title. -/
def roleFromSignals : List String → Option String → Option String × Option String
  | [], c => (c, none)
  | s :: ss, c =>
      if s.toList.isEmpty then roleFromSignals ss c
      else
        match searchRole s.toList with
        | some (g1, g2) => (some (pyStrip g2), some (pyStrip g1))
        | none => roleFromSignals ss c

/-- `AutoEnricher._infer_current_role`: GitHub declared company first
(leading/trailing `'@'` stripped), then the signals scan; returns
`(company, title)`. -/
def infer_current_role (p : Prospect) : Option String × Option String :=
  let c0 : Option String :=
    match p.github_enrichment with
    | some ge =>
        match ge.company with
        | some gc =>
            if gc.toList.isEmpty then none else some (pyStrip (stripAtChars gc))
        | none => none
    | none => none
  roleFromSignals p.signals c0

/-- Enrichment sub-step 1: email discovery (skipped when set). -/
def enrichEmail (env : Env) (p e : Prospect) : Prospect :=
  if blank e.email then
    match find_email env p with
    | some em => if em.toList.isEmpty then e else { e with email := some em }
    | none => e
  else e

/-- Enrichment sub-step 2: LinkedIn discovery (skipped when set). -/
def enrichLinkedin (env : Env) (p e : Prospect) : Prospect :=
  if blank e.linkedin_url then
    match find_linkedin env p with
    | some l => if l.toList.isEmpty then e else { e with linkedin_url := some l }
    | none => e
  else e

/-- Enrichment sub-step 3: GitHub profile enrichment. -/
def enrichGithub (env : Env) (e : Prospect) : Prospect :=
  if blank e.github_username then e
  else
    match env.github (e.github_username.getD "") with
    | some prof => { e with github_enrichment := some (ghToEnrichment prof) }
    | none => e

/-- Enrichment sub-step 4: Twitter profile synthesis. -/
def enrichTwitter (e : Prospect) : Prospect :=
  if blank e.twitter_handle then e
  else { e with twitter_enrichment := some (enrich_twitter (e.twitter_handle.getD "")) }

/-- Enrichment sub-step 5: role inference (skipped when
`current_company` is set); note it reads the original prospect `p`. -/
def enrichRole (p e : Prospect) : Prospect :=
  if blank e.current_company then
    let r := infer_current_role p
    let e1 :=
      match r.1 with
      | some cv => if cv.toList.isEmpty then e else { e with current_company := some cv }
      | none => e
    match r.2 with
    | some tv => if tv.toList.isEmpty then e1 else { e1 with current_title := some tv }
    | none => e1
  else e

/-- `AutoEnricher.enrich_prospect`: the five sub-steps in source order;
each helper receives the original prospect, the guards read the record
enriched so far. -/
def enrich_prospect (env : Env) (p : Prospect) : Prospect :=
  enrichRole p (enrichTwitter (enrichGithub env (enrichLinkedin env p (enrichEmail env p p))))

/-! ## Scorer (`ClaudeScorer`) -/

/-- The complete score record `score_prospect` returns. -/
structure ScoreResult where
  overall_score : Int
  founder_score : Int
  thesis_fit_score : Int
  timing_score : Int
  signal_strength_score : Int
  priority : String
  reasoning : String
deriving DecidableEq, Repr

/-- The partially filled `scores` dictionary during response parsing. -/
structure PartialScores where
  founder_score : Option Int := none
  thesis_fit_score : Option Int := none
  timing_score : Option Int := none
  signal_strength_score : Option Int := none
  overall_score : Option Int := none
  priority : Option String := none
  reasoning : Option String := none
deriving DecidableEq, Repr

/-- Python `line.split(':')[1]`: the text between the first and second
colon; `none` models the `IndexError` when no colon is present. -/
def betweenFirstColons (cs : List Char) : Option (List Char) :=
  match afterFirst ':' cs with
  | some r => some (r.takeWhile (fun c => c ≠ ':'))
  | none => none

/-- One line of the `elif` chain of `_parse_claude_response`; `none`
models an exception (a non-integer score) escaping to the outer
`except`. -/
def procLine (st : PartialScores) (line : String) : Option PartialScores :=
  if containsSub "FOUNDER_SCORE:" line then
    match betweenFirstColons line.toList with
    | some x => (pyInt (pyStrip (String.mk x))).map
        (fun n => { st with founder_score := some n })
    | none => none
  else if containsSub "THESIS_FIT_SCORE:" line then
    match betweenFirstColons line.toList with
    | some x => (pyInt (pyStrip (String.mk x))).map
        (fun n => { st with thesis_fit_score := some n })
    | none => none
  else if containsSub "TIMING_SCORE:" line then
    match betweenFirstColons line.toList with
    | some x => (pyInt (pyStrip (String.mk x))).map
        (fun n => { st with timing_score := some n })
    | none => none
  else if containsSub "SIGNAL_STRENGTH_SCORE:" line then
    match betweenFirstColons line.toList with
    | some x => (pyInt (pyStrip (String.mk x))).map
        (fun n => { st with signal_strength_score := some n })
    | none => none
  else if containsSub "OVERALL_SCORE:" line then
    match betweenFirstColons line.toList with
    | some x => (pyInt (pyStrip (String.mk x))).map
        (fun n => { st with overall_score := some n })
    | none => none
  else if containsSub "PRIORITY:" line then
    match betweenFirstColons line.toList with
    | some x => some { st with priority := some (pyStrip (String.mk x)) }
    | none => none
  else if containsSub "REASONING:" line then
    match afterFirst ':' line.toList with
    | some r => some { st with reasoning := some (pyStrip (String.mk r)) }
    | none => none
  else some st

/-- The line loop; the first exception aborts the whole parse. -/
def procLines (st : PartialScores) : List String → Option PartialScores
  | [] => some st
  | l :: ls =>
      match procLine st l with
      | some st2 => procLines st2 ls
      | none => none

/-- The `required`-fields defaulting loop of `_parse_claude_response`. -/
def fillDefaults (st : PartialScores) : ScoreResult :=
  { overall_score := st.overall_score.getD 50
    founder_score := st.founder_score.getD 50
    thesis_fit_score := st.thesis_fit_score.getD 50
    timing_score := st.timing_score.getD 50
    signal_strength_score := st.signal_strength_score.getD 50
    priority := st.priority.getD "Medium"
    reasoning := st.reasoning.getD "Incomplete scoring response" }

/-- The default returned when parsing raises. -/
def errorParseResult : ScoreResult :=
  { overall_score := 50, founder_score := 50, thesis_fit_score := 50,
    timing_score := 50, signal_strength_score := 50, priority := "Medium",
    reasoning := "Error parsing scoring response" }

/-- Python `response_text.split('\n')`. -/
def pySplitLines (s : String) : List String := (splitChar '\n' s.toList).map String.mk

/-- `ClaudeScorer._parse_claude_response`. -/
def parse_claude_response (response_text : String) : ScoreResult :=
  match procLines {} (pySplitLines response_text) with
  | some st => fillDefaults st
  | none => errorParseResult

/-- `ClaudeScorer.score_prospect`, with the external rating call
abstracted to its outcome: the response text, or the raised error's
message. -/
def score_prospect (response : Except String String) : ScoreResult :=
  match response with
  | Except.ok txt => parse_claude_response txt
  | Except.error msg =>
      { overall_score := 50, founder_score := 50, thesis_fit_score := 50,
        timing_score := 50, signal_strength_score := 50, priority := "Medium",
        reasoning := "Error during scoring: " ++ msg }

/-! ## Storage (`CSVDatabase`, `GoogleSheetsDB`)

A store state is the list of data rows (the header row is implicit).
CSV cells are strings (`csv.writer` stringifies); a Sheets cell keeps
the Python value passed to `append_row`, which for the `Signals` column
is the raw signals list. -/

/-- A value passed to the Sheets `append_row` call. -/
inductive Cell where
  | str : String → Cell
  | num : Int → Cell
  | strs : List String → Cell
deriving DecidableEq, Repr

/-- Display text of a cell as `col_values` returns it.  `Name` and
`Email` cells written by `add_prospect` are always `str`, so the `strs`
arm never affects a duplicate check. -/
def cellText : Cell → String
  | Cell.str s => s
  | Cell.num n => toString n
  | Cell.strs l => String.intercalate ", " l

/-- Python `.lower().strip()` normalization used by both duplicate checks. -/
def normKey (s : String) : String := pyStrip (pyLower s)

/-- A score cell in the CSV row (`csv.writer` stringifies the int). -/
def scoreCellS (o : Option Int) : String :=
  match o with
  | some n => toString n
  | none => ""

/-- A score cell in the Sheets row. -/
def scoreCell (o : Option Int) : Cell :=
  match o with
  | some n => Cell.num n
  | none => Cell.str ""

/-- Python `prospect.get('twitter_url', prospect.get('twitter_handle', ''))`. -/
def twitterCell (p : Prospect) : String :=
  match p.twitter_url with
  | some v => v
  | none => pyStr p.twitter_handle

/-- Python `prospect.get('blog', prospect.get('website', ''))`. -/
def websiteCell (p : Prospect) : String :=
  match p.blog with
  | some v => v
  | none => pyStr p.website

/-- `' | '.join(str(s) for s in signals if s)`: empty signals are
filtered out before joining. -/
def joinSignals (signals : List String) : String :=
  String.intercalate " | " (signals.filter (fun s => !s.toList.isEmpty))

/-- The 20-cell row `CSVDatabase.add_prospect` writes, in header order. -/
def csvRow (now : String) (p : Prospect) : List String :=
  [now, pyStr p.name, pyStr p.email, pyStr p.location, pyStr p.company,
   pyStr p.title, pyStr p.linkedin_url, twitterCell p, pyStr p.github_url,
   websiteCell p, pyStr p.source, pyTake (pyStr p.bio) 500,
   joinSignals p.signals, scoreCellS p.overall_score, scoreCellS p.founder_score,
   scoreCellS p.thesis_fit_score, scoreCellS p.timing_score,
   scoreCellS p.signal_strength_score, pyStr p.priority, pyStr p.reasoning]

/-- The 20-cell row `GoogleSheetsDB.add_prospect` writes: identical,
except the `Signals` cell is the raw signals value, not a joined string. -/
def sheetsRow (now : String) (p : Prospect) : List Cell :=
  [Cell.str now, Cell.str (pyStr p.name), Cell.str (pyStr p.email),
   Cell.str (pyStr p.location), Cell.str (pyStr p.company), Cell.str (pyStr p.title),
   Cell.str (pyStr p.linkedin_url), Cell.str (twitterCell p),
   Cell.str (pyStr p.github_url), Cell.str (websiteCell p), Cell.str (pyStr p.source),
   Cell.str (pyTake (pyStr p.bio) 500), Cell.strs p.signals,
   scoreCell p.overall_score, scoreCell p.founder_score, scoreCell p.thesis_fit_score,
   scoreCell p.timing_score, scoreCell p.signal_strength_score,
   Cell.str (pyStr p.priority), Cell.str (pyStr p.reasoning)]

/-- `CSVDatabase._is_duplicate`: scan all rows; a nonempty normalized
name or email must equal the row's normalized `Name` or `Email` cell. -/
def csv_is_duplicate (rows : List (List String)) (p : Prospect) : Bool :=
  let pn := normKey (pyStr p.name)
  let pe := normKey (pyStr p.email)
  rows.any (fun row =>
    (!pn.toList.isEmpty && pn == normKey (row.getD 1 ""))
      || (!pe.toList.isEmpty && pe == normKey (row.getD 2 "")))

/-- `GoogleSheetsDB._is_duplicate`: collect the name and email columns,
drop empty values, normalize, and test membership. -/
def sheets_is_duplicate (rows : List (List Cell)) (p : Prospect) : Bool :=
  let names := rows.map (fun r => cellText (r.getD 1 (Cell.str "")))
  let emails := rows.map (fun r => cellText (r.getD 2 (Cell.str "")))
  let pn := normKey (pyStr p.name)
  let pe := normKey (pyStr p.email)
  (!pn.toList.isEmpty
      && ((names.filter (fun n => !n.toList.isEmpty)).map normKey).contains pn)
    || (!pe.toList.isEmpty
      && ((emails.filter (fun e => !e.toList.isEmpty)).map normKey).contains pe)

/-- `CSVDatabase.add_prospect`: returns whether the prospect is new,
and the resulting row set. -/
def csv_add_prospect (now : String) (rows : List (List String)) (p : Prospect) :
    Bool × List (List String) :=
  if csv_is_duplicate rows p then (false, rows)
  else (true, rows ++ [csvRow now p])

/-- `GoogleSheetsDB.add_prospect`. -/
def sheets_add_prospect (now : String) (rows : List (List Cell)) (p : Prospect) :
    Bool × List (List Cell) :=
  if sheets_is_duplicate rows p then (false, rows)
  else (true, rows ++ [sheetsRow now p])

/-! ## Orchestrator (`SourcingEngine.store_prospects`) -/

/-- The run-statistics dictionary. -/
structure Stats where
  total : Nat
  new : Nat
  duplicates : Nat
  enriched : Nat
  scored : Nat
  high_priority : Nat
deriving DecidableEq, Repr

/-- `enriched_prospect.update(score_data)`: the seven score keys are
written onto the prospect. -/
def applyScore (p : Prospect) (s : ScoreResult) : Prospect :=
  { p with
    overall_score := some s.overall_score
    founder_score := some s.founder_score
    thesis_fit_score := some s.thesis_fit_score
    timing_score := some s.timing_score
    signal_strength_score := some s.signal_strength_score
    priority := some s.priority
    reasoning := some s.reasoning }

/-- The per-prospect loop of `store_prospects`: enrich, score, store in
the Sheets database, and update the statistics.  `rate` gives the rating
call's outcome for each (enriched) prospect. -/
def storeLoop (env : Env) (rate : Prospect → Except String String) (now : String) :
    Stats → List (List Cell) → List Prospect → Stats × List (List Cell)
  | st, db, [] => (st, db)
  | st, db, p :: ps =>
      let ep := enrich_prospect env p
      let st1 := { st with enriched := st.enriched + 1 }
      let sd := score_prospect (rate ep)
      let ep2 := applyScore ep sd
      let st2 := { st1 with scored := st1.scored + 1 }
      let r := sheets_add_prospect now db ep2
      let st3 :=
        if r.1 then
          let stn := { st2 with new := st2.new + 1 }
          if sd.priority = "High" then
            { stn with high_priority := stn.high_priority + 1 }
          else stn
        else { st2 with duplicates := st2.duplicates + 1 }
      storeLoop env rate now st3 r.2 ps

/-- `SourcingEngine.store_prospects`. -/
def store_prospects (env : Env) (rate : Prospect → Except String String) (now : String)
    (db : List (List Cell)) (prospects : List Prospect) : Stats × List (List Cell) :=
  storeLoop env rate now
    { total := prospects.length, new := 0, duplicates := 0, enriched := 0,
      scored := 0, high_priority := 0 } db prospects

/-- The per-prospect outcomes of a run: for each prospect in order,
whether its store call returned new, and its scored priority. -/
def runOutcomes (env : Env) (rate : Prospect → Except String String) (now : String) :
    List (List Cell) → List Prospect → List (Bool × String)
  | _, [] => []
  | db, p :: ps =>
      let ep := enrich_prospect env p
      let sd := score_prospect (rate ep)
      let r := sheets_add_prospect now db (applyScore ep sd)
      (r.1, sd.priority) :: runOutcomes env rate now r.2 ps

/-! ## Concrete inputs used by counterexamples and witnesses -/

/-- A network oracle in which every GitHub fetch fails. -/
def envNone : Env := ⟨fun _ => none⟩

/-- A rating oracle that always answers with a lone High-priority line. -/
def rateHigh : Prospect → Except String String := fun _ => Except.ok "PRIORITY: High"

/-- A candidate whose `name` key is present but empty (and no email). -/
def pNoName : Prospect := { name := some "" }

/-- A candidate with an already-set title but no company, whose signal
text matches the role pattern. -/
def pTitled : Prospect :=
  { name := some "X", current_title := some "CEO", signals := ["Senior Engineer at Stripe"] }

/-- A candidate whose signals contain an empty string. -/
def pSignals : Prospect := { name := some "Ada", signals := ["a", ""] }

/-- A candidate with a 900-character bio. -/
def pBio : Prospect := { name := some "B", bio := some (String.mk (List.replicate 900 'x')) }

/-- A candidate colliding (up to case) with the pre-seeded row below. -/
def pAlice : Prospect := { name := some "alice" }

/-- A pre-seeded store holding one row named `Alice`. -/
def dbAlice : List (List Cell) := [[Cell.str "t0", Cell.str "Alice", Cell.str ""]]

/-- A fully pre-populated candidate: every enrichable field already set. -/
def pFull : Prospect :=
  { name := some "A", email := some "a@b.co", linkedin_url := some "L",
    current_company := some "Acme", current_title := some "CEO",
    signals := ["Senior Engineer at Stripe", "c@d.io"] }

/-- A candidate with no company or title but a role-bearing signal. -/
def pRole : Prospect := { name := some "R", signals := ["Senior Engineer at Stripe"] }

/-- A concrete complete score record. -/
def sHigh : ScoreResult :=
  { overall_score := 80, founder_score := 80, thesis_fit_score := 80, timing_score := 80,
    signal_strength_score := 80, priority := "High", reasoning := "r" }

/-- A rating response whose first score line carries non-integer text
while every other labeled line is well-formed. -/
def c4BadText : String :=
  "FOUNDER_SCORE: abc\nTHESIS_FIT_SCORE: 80\nTIMING_SCORE: 70\nSIGNAL_STRENGTH_SCORE: 60\nOVERALL_SCORE: 90\nPRIORITY: High\nREASONING: solid"

/-! ## Helper lemmas -/

theorem mk_toList (s : String) : String.mk s.toList = s := by
  cases s
  rfl

theorem toListEmpty_iff (s : String) : s.toList.isEmpty = true ↔ s = "" := by
  constructor
  · intro h
    cases s with
    | mk d =>
        cases d with
        | nil => rfl
        | cons c cs => simp [String.toList, List.isEmpty] at h
  · intro h
    rw [h]
    rfl

theorem ciPref_extend (n : List Char) :
    ∀ h t r, ciPref n h = some t → ciPref n (h ++ r) = some (t ++ r) := by
  induction n with
  | nil =>
      intro h t r hp
      unfold ciPref at hp ⊢
      injection hp with hp
      rw [hp]
  | cons a as ih =>
      intro h t r hp
      cases h with
      | nil => exact absurd hp (by simp [ciPref])
      | cons b bs =>
          simp only [ciPref] at hp
          simp only [List.cons_append, ciPref]
          by_cases hcase : a.toLower = b.toLower
          · rw [if_pos hcase] at hp ⊢
            exact ih bs t r hp
          · rw [if_neg hcase] at hp
            cases hp

theorem ciSubstr_of_pref (n cs : List Char) (h : (ciPref n cs).isSome = true) :
    ciSubstr n cs = true := by
  cases cs with
  | nil =>
      cases n with
      | nil => rfl
      | cons a as => simp [ciPref] at h
  | cons c cs' => simp [ciSubstr, h]

theorem procLines_append (ls1 ls2 : List String) :
    ∀ st, procLines st (ls1 ++ ls2) = (procLines st ls1).bind (fun s => procLines s ls2) := by
  induction ls1 with
  | nil => intro st; rfl
  | cons l ls ih =>
      intro st
      show (match procLine st l with
            | some st2 => procLines st2 (ls ++ ls2)
            | none => none) = _
      cases hp : procLine st l with
      | some st2 => simp [procLines, hp, ih]
      | none => simp [procLines, hp]

theorem procLine_priority_eq (st st2 : PartialScores) (l : String)
    (hc : containsSub "PRIORITY:" l = false) (hp : procLine st l = some st2) :
    st2.priority = st.priority := by
  unfold procLine at hp
  repeat' split at hp
  all_goals try (cases hp)
  all_goals try (rw [Option.map_eq_some'] at hp; obtain ⟨n, -, h⟩ := hp; subst h; rfl)
  all_goals try rfl
  all_goals simp_all

theorem procLines_priority_eq (ls : List String) :
    ∀ st st2, (∀ x ∈ ls, containsSub "PRIORITY:" x = false) →
      procLines st ls = some st2 → st2.priority = st.priority := by
  induction ls with
  | nil =>
      intro st st2 _ hp
      injection hp with h
      rw [← h]
  | cons l ls ih =>
      intro st st2 hall hp
      show st2.priority = st.priority
      unfold procLines at hp
      cases h1 : procLine st l with
      | some st1 =>
          rw [h1] at hp
          have h2 := ih st1 st2 (fun x hx => hall x (List.mem_cons_of_mem l hx)) hp
          rw [h2, procLine_priority_eq st st1 l (hall l (List.mem_cons_self l ls)) h1]
      | none => rw [h1] at hp; cases hp

theorem scoreBranch_none (f : Int → PartialScores) (l : String)
    (hbad : (betweenFirstColons l.toList).bind
      (fun x => pyInt (pyStrip (String.mk x))) = none) :
    (match betweenFirstColons l.toList with
      | some x => (pyInt (pyStrip (String.mk x))).map f
      | none => none) = none := by
  cases hx : betweenFirstColons l.toList with
  | none => rfl
  | some x =>
      rw [hx] at hbad
      simp only [Option.bind] at hbad
      simp [hbad]

/-- A line carrying any of the five score labels dispatches to one of
the five score branches (all earlier than PRIORITY/REASONING in the
elif chain), and each of those branches parses
`line.split(':')[1].strip()` with `int()`; if that text is non-integer,
the exception escapes the line loop. -/
theorem procLine_score_bad (st : PartialScores) (l : String)
    (hc : containsSub "FOUNDER_SCORE:" l = true ∨ containsSub "THESIS_FIT_SCORE:" l = true ∨
      containsSub "TIMING_SCORE:" l = true ∨ containsSub "SIGNAL_STRENGTH_SCORE:" l = true ∨
      containsSub "OVERALL_SCORE:" l = true)
    (hbad : (betweenFirstColons l.toList).bind
      (fun x => pyInt (pyStrip (String.mk x))) = none) :
    procLine st l = none := by
  unfold procLine
  by_cases h1 : containsSub "FOUNDER_SCORE:" l = true
  · rw [if_pos h1]
    exact scoreBranch_none _ l hbad
  · rw [if_neg h1]
    by_cases h2 : containsSub "THESIS_FIT_SCORE:" l = true
    · rw [if_pos h2]
      exact scoreBranch_none _ l hbad
    · rw [if_neg h2]
      by_cases h3 : containsSub "TIMING_SCORE:" l = true
      · rw [if_pos h3]
        exact scoreBranch_none _ l hbad
      · rw [if_neg h3]
        by_cases h4 : containsSub "SIGNAL_STRENGTH_SCORE:" l = true
        · rw [if_pos h4]
          exact scoreBranch_none _ l hbad
        · rw [if_neg h4]
          by_cases h5 : containsSub "OVERALL_SCORE:" l = true
          · rw [if_pos h5]
            exact scoreBranch_none _ l hbad
          · rcases hc with h | h | h | h | h
            · exact absurd h h1
            · exact absurd h h2
            · exact absurd h h3
            · exact absurd h h4
            · exact absurd h h5

/-! ## Claim C3 -/

/-- C3: when the external rating call raises with message `msg`, the
scorer does not raise but returns a complete result in which all five
score fields are 50, the priority is Medium, and the reasoning contains
the word "error" (case-insensitive). -/
theorem c3_scoring_error_default (msg : String) :
    score_prospect (Except.error msg) =
      { overall_score := 50, founder_score := 50, thesis_fit_score := 50,
        timing_score := 50, signal_strength_score := 50, priority := "Medium",
        reasoning := "Error during scoring: " ++ msg } ∧
    ciSubstr "error".toList (score_prospect (Except.error msg)).reasoning.toList = true := by
  constructor
  · rfl
  · show ciSubstr "error".toList ("Error during scoring: " ++ msg).toList = true
    rw [toList_append]
    apply ciSubstr_of_pref
    have h1 : ciPref "error".toList "Error during scoring: ".toList
        = some " during scoring: ".toList := by decide
    rw [ciPref_extend "error".toList "Error during scoring: ".toList
      " during scoring: ".toList msg.toList h1]
    rfl

/-! ## Claim C4 -/

/-- C4 counterexample: on a response whose FOUNDER_SCORE line carries
non-integer text while every other labeled line is well-formed, the
parser returns the full error default; the other fields do not keep
their parsed values (THESIS_FIT_SCORE 80 and PRIORITY High are lost). -/
theorem c4_counterexample :
    parse_claude_response c4BadText = errorParseResult ∧
    (parse_claude_response c4BadText).thesis_fit_score ≠ 80 ∧
    (parse_claude_response c4BadText).priority ≠ "High" := by decide

/-- C4 (amended): a line carrying any of the five score labels whose
text after the first colon parses as non-integer raises inside the
single try of the parse loop, aborting the whole parse: every field of
the result is the error default, regardless of what the other lines
contained. -/
theorem c4_nonint_aborts_parse (txt : String) (ls1 ls2 : List String) (l : String)
    (st : PartialScores)
    (hsplit : pySplitLines txt = ls1 ++ l :: ls2)
    (h1 : procLines {} ls1 = some st)
    (hc : containsSub "FOUNDER_SCORE:" l = true ∨ containsSub "THESIS_FIT_SCORE:" l = true ∨
      containsSub "TIMING_SCORE:" l = true ∨ containsSub "SIGNAL_STRENGTH_SCORE:" l = true ∨
      containsSub "OVERALL_SCORE:" l = true)
    (hbad : (betweenFirstColons l.toList).bind
      (fun x => pyInt (pyStrip (String.mk x))) = none) :
    parse_claude_response txt = errorParseResult := by
  unfold parse_claude_response
  rw [hsplit, procLines_append, h1]
  have hl : procLine st l = none := procLine_score_bad st l hc hbad
  have h2 : procLines st (l :: ls2) = none := by
    unfold procLines
    rw [hl]
  simp [h2]

/-- Witness for the amended C4 theorem at a concrete response whose bad
line carries a label other than the first in the elif chain. -/
theorem c4_nonint_aborts_parse_witness :
    parse_claude_response "TIMING_SCORE: xx\nPRIORITY: High" = errorParseResult :=
  c4_nonint_aborts_parse "TIMING_SCORE: xx\nPRIORITY: High" [] ["PRIORITY: High"]
    "TIMING_SCORE: xx" {} (by decide) rfl (Or.inr (Or.inr (Or.inl (by decide)))) (by decide)

/-! ## Claim C9 -/

/-- C9: when no line of the response contains the PRIORITY label and the
remaining lines parse without error, the result's priority is Medium and
every other parsed field keeps its parsed value. -/
theorem c9_missing_priority (txt : String) (st : PartialScores)
    (hall : ∀ x ∈ pySplitLines txt, containsSub "PRIORITY:" x = false)
    (hp : procLines {} (pySplitLines txt) = some st) :
    (parse_claude_response txt).priority = "Medium" ∧
    (∀ n, st.founder_score = some n → (parse_claude_response txt).founder_score = n) ∧
    (∀ n, st.thesis_fit_score = some n → (parse_claude_response txt).thesis_fit_score = n) ∧
    (∀ n, st.timing_score = some n → (parse_claude_response txt).timing_score = n) ∧
    (∀ n, st.signal_strength_score = some n →
      (parse_claude_response txt).signal_strength_score = n) ∧
    (∀ n, st.overall_score = some n → (parse_claude_response txt).overall_score = n) ∧
    (∀ r, st.reasoning = some r → (parse_claude_response txt).reasoning = r) := by
  have hparse : parse_claude_response txt = fillDefaults st := by
    unfold parse_claude_response
    rw [hp]
  have hpr : st.priority = none :=
    (procLines_priority_eq (pySplitLines txt) {} st hall hp).trans rfl
  refine ⟨?_, ?_, ?_, ?_, ?_, ?_, ?_⟩
  · rw [hparse]
    show st.priority.getD "Medium" = "Medium"
    rw [hpr]
    rfl
  · intro n h
    rw [hparse]
    show st.founder_score.getD 50 = n
    rw [h]
    rfl
  · intro n h
    rw [hparse]
    show st.thesis_fit_score.getD 50 = n
    rw [h]
    rfl
  · intro n h
    rw [hparse]
    show st.timing_score.getD 50 = n
    rw [h]
    rfl
  · intro n h
    rw [hparse]
    show st.signal_strength_score.getD 50 = n
    rw [h]
    rfl
  · intro n h
    rw [hparse]
    show st.overall_score.getD 50 = n
    rw [h]
    rfl
  · intro r h
    rw [hparse]
    show st.reasoning.getD "Incomplete scoring response" = r
    rw [h]
    rfl

/-- Witness for C9 at a concrete response with no PRIORITY line. -/
theorem c9_missing_priority_witness :
    (parse_claude_response "FOUNDER_SCORE: 80\nREASONING: fine").priority = "Medium" ∧
    (parse_claude_response "FOUNDER_SCORE: 80\nREASONING: fine").founder_score = 80 := by
  have h := c9_missing_priority "FOUNDER_SCORE: 80\nREASONING: fine"
    { founder_score := some 80, reasoning := some "fine" } (by decide) (by decide)
  exact ⟨h.1, h.2.1 80 rfl⟩

/-! ## Claim C6 -/

theorem storeLoop_nil (env : Env) (rate : Prospect → Except String String) (now : String)
    (st : Stats) (db : List (List Cell)) : storeLoop env rate now st db [] = (st, db) := rfl

theorem runOutcomes_nil (env : Env) (rate : Prospect → Except String String) (now : String)
    (db : List (List Cell)) : runOutcomes env rate now db [] = [] := rfl

theorem storeLoop_cons (env : Env) (rate : Prospect → Except String String) (now : String)
    (st : Stats) (db : List (List Cell)) (p : Prospect) (ps : List Prospect) :
    storeLoop env rate now st db (p :: ps) =
      storeLoop env rate now
        (if (sheets_add_prospect now db (applyScore (enrich_prospect env p)
              (score_prospect (rate (enrich_prospect env p))))).1 then
          if (score_prospect (rate (enrich_prospect env p))).priority = "High" then
            { st with
              enriched := st.enriched + 1
              scored := st.scored + 1
              new := st.new + 1
              high_priority := st.high_priority + 1 }
          else
            { st with
              enriched := st.enriched + 1
              scored := st.scored + 1
              new := st.new + 1 }
         else
          { st with
            enriched := st.enriched + 1
            scored := st.scored + 1
            duplicates := st.duplicates + 1 })
        (sheets_add_prospect now db (applyScore (enrich_prospect env p)
          (score_prospect (rate (enrich_prospect env p))))).2 ps := rfl

theorem runOutcomes_cons (env : Env) (rate : Prospect → Except String String) (now : String)
    (db : List (List Cell)) (p : Prospect) (ps : List Prospect) :
    runOutcomes env rate now db (p :: ps) =
      ((sheets_add_prospect now db (applyScore (enrich_prospect env p)
          (score_prospect (rate (enrich_prospect env p))))).1,
        (score_prospect (rate (enrich_prospect env p))).priority) ::
      runOutcomes env rate now
        (sheets_add_prospect now db (applyScore (enrich_prospect env p)
          (score_prospect (rate (enrich_prospect env p))))).2 ps := rfl

/-- The statistics accumulated by the orchestrator loop, in terms of the
per-prospect outcomes. -/
theorem storeLoop_stats (env : Env) (rate : Prospect → Except String String) (now : String) :
    ∀ (ps : List Prospect) (st : Stats) (db : List (List Cell)),
      (storeLoop env rate now st db ps).1 =
        { total := st.total,
          new := st.new + ((runOutcomes env rate now db ps).filter (fun o => o.1)).length,
          duplicates := st.duplicates +
            ((runOutcomes env rate now db ps).filter (fun o => !o.1)).length,
          enriched := st.enriched + ps.length,
          scored := st.scored + ps.length,
          high_priority := st.high_priority +
            ((runOutcomes env rate now db ps).filter
              (fun o => o.1 && o.2 == "High")).length } := by
  intro ps
  induction ps with
  | nil =>
      intro st db
      rw [storeLoop_nil, runOutcomes_nil]
      simp
  | cons p ps ih =>
      intro st db
      rw [storeLoop_cons, runOutcomes_cons]
      generalize score_prospect (rate (enrich_prospect env p)) = sd
      generalize sheets_add_prospect now db (applyScore (enrich_prospect env p) sd) = r
      obtain ⟨b, db2⟩ := r
      rw [ih]
      cases b with
      | true =>
          by_cases hpr : sd.priority = "High"
          · simp [hpr, List.filter_cons, Stats.mk.injEq]
            omega
          · have hne : ((sd.priority == "High") : Bool) = false := by simp [hpr]
            simp [hne, List.filter_cons, Stats.mk.injEq, if_neg hpr]
            omega
      | false =>
          simp [List.filter_cons, Stats.mk.injEq]
          omega

/-- C6 counterexample: a single pre-seeded duplicate candidate scored
High leaves the final high-priority count at 0, although one scored
candidate has priority High. -/
theorem c6_counterexample :
    (store_prospects envNone rateHigh "t" dbAlice [pAlice]).1.high_priority = 0 ∧
    (store_prospects envNone rateHigh "t" dbAlice [pAlice]).1.scored = 1 ∧
    (store_prospects envNone rateHigh "t" dbAlice [pAlice]).1.duplicates = 1 ∧
    score_prospect (rateHigh (enrich_prospect envNone pAlice)) =
      { overall_score := 50, founder_score := 50, thesis_fit_score := 50,
        timing_score := 50, signal_strength_score := 50, priority := "High",
        reasoning := "Incomplete scoring response" } := by decide

/-- C6 (amended): the final high-priority count equals the number of
candidates that were stored as new and whose score has priority High;
scored High-priority candidates rejected as duplicates are not counted.
The other statistics count new, duplicate, and all processed candidates. -/
theorem c6_high_priority_counts_new (env : Env) (rate : Prospect → Except String String)
    (now : String) (db : List (List Cell)) (ps : List Prospect) :
    (store_prospects env rate now db ps).1.high_priority =
      ((runOutcomes env rate now db ps).filter (fun o => o.1 && o.2 == "High")).length ∧
    (store_prospects env rate now db ps).1.new =
      ((runOutcomes env rate now db ps).filter (fun o => o.1)).length ∧
    (store_prospects env rate now db ps).1.duplicates =
      ((runOutcomes env rate now db ps).filter (fun o => !o.1)).length ∧
    (store_prospects env rate now db ps).1.total = ps.length ∧
    (store_prospects env rate now db ps).1.enriched = ps.length ∧
    (store_prospects env rate now db ps).1.scored = ps.length := by
  unfold store_prospects
  rw [storeLoop_stats]
  simp

/-! ## Claim C5 -/

/-- C5 counterexample: a non-duplicate candidate whose signals list is
`["a", ""]`.  The CSV store writes `"a"` (empty signals are filtered
before joining), and the Sheets store writes the raw list; neither cell
is the signals sequence joined by the literal separator. -/
theorem c5_counterexample :
    csv_is_duplicate [] pSignals = false ∧
    (csvRow "t" pSignals).getD 12 "" ≠ String.intercalate " | " pSignals.signals ∧
    sheets_is_duplicate [] pSignals = false ∧
    (sheetsRow "t" pSignals).getD 12 (Cell.str "") ≠
      Cell.str (String.intercalate " | " pSignals.signals) := by decide

/-- C5 (amended): a non-duplicate candidate is appended as exactly one
row of 20 cells in the fixed column order and the add returns true; the
Bio cell is the bio truncated to at most 500 characters; the CSV
Signals cell joins the nonempty signals with the literal separator,
while the Sheets Signals cell holds the raw unflattened signals value. -/
theorem c5_row_shape (now : String) (R : List (List String)) (S : List (List Cell))
    (p : Prospect) :
    (csv_is_duplicate R p = false →
      csv_add_prospect now R p = (true, R ++ [csvRow now p])) ∧
    (sheets_is_duplicate S p = false →
      sheets_add_prospect now S p = (true, S ++ [sheetsRow now p])) ∧
    (csvRow now p).length = 20 ∧
    (sheetsRow now p).length = 20 ∧
    (csvRow now p).getD 11 "" = pyTake (pyStr p.bio) 500 ∧
    (sheetsRow now p).getD 11 (Cell.str "") = Cell.str (pyTake (pyStr p.bio) 500) ∧
    ((csvRow now p).getD 11 "").toList.length ≤ 500 ∧
    (csvRow now p).getD 12 "" = joinSignals p.signals ∧
    (sheetsRow now p).getD 12 (Cell.str "") = Cell.strs p.signals ∧
    (csvRow now p).getD 1 "" = pyStr p.name ∧
    (csvRow now p).getD 2 "" = pyStr p.email := by
  refine ⟨?_, ?_, rfl, rfl, rfl, rfl, ?_, rfl, rfl, rfl, rfl⟩
  · intro h
    simp [csv_add_prospect, h]
  · intro h
    simp [sheets_add_prospect, h]
  · show ((pyStr p.bio).toList.take 500).length ≤ 500
    exact List.length_take_le 500 _

set_option maxRecDepth 8192 in
/-- Witness for C5 at a non-duplicate candidate with a 900-character
bio: the stored Bio cell has exactly 500 characters. -/
theorem c5_row_shape_witness :
    csv_add_prospect "t" [] pBio = (true, [csvRow "t" pBio]) ∧
    ((csvRow "t" pBio).getD 11 "").toList.length = 500 := by
  have h := (c5_row_shape "t" [] [] pBio).1 (by decide)
  exact ⟨by simpa using h, by decide⟩

/-! ## Claim C1 -/

/-- C1 counterexample: a candidate whose name key holds the empty string
and that has no email.  The first add returns true; the second add of
the very same candidate returns true again and appends a second row,
although the claim requires false and no append. -/
theorem c1_counterexample :
    pNoName.email = none ∧ pNoName.name = some "" ∧
    (csv_add_prospect "t1" [] pNoName).1 = true ∧
    (csv_add_prospect "t2" (csv_add_prospect "t1" [] pNoName).2 pNoName).1 = true ∧
    ((csv_add_prospect "t2" (csv_add_prospect "t1" [] pNoName).2 pNoName).2).length = 2 ∧
    (sheets_add_prospect "t1" [] pNoName).1 = true ∧
    (sheets_add_prospect "t2" (sheets_add_prospect "t1" [] pNoName).2 pNoName).1 = true := by
  decide

/-- C1 (amended): after `add c` returned true, a subsequent `add c'`
returns false and appends nothing whenever `c'` has no email, the
lower-cased trimmed names agree, and that normalized name is nonempty
(candidates whose name is empty or whitespace-only are never detected
as duplicates). -/
theorem c1_trimmed_name_dup (now1 now2 : String) (R : List (List String))
    (S : List (List Cell)) (c c' : Prospect)
    (hn : normKey (pyStr c'.name) = normKey (pyStr c.name))
    (hne : normKey (pyStr c.name) ≠ "")
    (hm : c'.email = none) :
    ((csv_add_prospect now1 R c).1 = true →
      csv_add_prospect now2 (csv_add_prospect now1 R c).2 c' =
        (false, (csv_add_prospect now1 R c).2)) ∧
    ((sheets_add_prospect now1 S c).1 = true →
      sheets_add_prospect now2 (sheets_add_prospect now1 S c).2 c' =
        (false, (sheets_add_prospect now1 S c).2)) := by
  have hemptyC : (normKey (pyStr c.name)).toList.isEmpty = false := by
    rw [Bool.eq_false_iff]
    intro hx
    rw [toListEmpty_iff] at hx
    exact hne hx
  have hrawname : pyStr c.name ≠ "" := by
    intro hx
    apply hne
    rw [hx]
    rfl
  constructor
  · intro h1
    by_cases hd : csv_is_duplicate R c = true
    · rw [csv_add_prospect, if_pos hd] at h1
      cases h1
    · have hd' : csv_is_duplicate R c = false := by simpa using hd
      have h2 : (csv_add_prospect now1 R c).2 = R ++ [csvRow now1 c] := by
        simp [csv_add_prospect, hd']
      have hdup : csv_is_duplicate (R ++ [csvRow now1 c]) c' = true := by
        unfold csv_is_duplicate
        simp only [List.any_append, List.any_cons, List.any_nil, Bool.or_false,
          Bool.or_eq_true]
        right
        left
        have hcell : (csvRow now1 c).getD 1 "" = pyStr c.name := rfl
        rw [hcell, hn, hemptyC]
        simp
      rw [h2]
      simp [csv_add_prospect, hdup]
  · intro h1
    by_cases hd : sheets_is_duplicate S c = true
    · rw [sheets_add_prospect, if_pos hd] at h1
      cases h1
    · have hd' : sheets_is_duplicate S c = false := by simpa using hd
      have h2 : (sheets_add_prospect now1 S c).2 = S ++ [sheetsRow now1 c] := by
        simp [sheets_add_prospect, hd']
      have hdup : sheets_is_duplicate (S ++ [sheetsRow now1 c]) c' = true := by
        unfold sheets_is_duplicate
        simp only [Bool.or_eq_true, Bool.and_eq_true]
        left
        rw [hn]
        constructor
        · rw [hemptyC]
          rfl
        · rw [List.elem_iff]
          have hcell : cellText ((sheetsRow now1 c).getD 1 (Cell.str "")) = pyStr c.name := rfl
          have hnempty : (!(pyStr c.name).toList.isEmpty) = true := by
            have hx : (pyStr c.name).toList.isEmpty = false := by
              rw [Bool.eq_false_iff]
              intro hx
              rw [toListEmpty_iff] at hx
              exact hrawname hx
            rw [hx]
            rfl
          have hmemname : pyStr c.name ∈
              ((S ++ [sheetsRow now1 c]).map
                (fun r => cellText (r.getD 1 (Cell.str "")))).filter
                (fun n => !n.toList.isEmpty) := by
            rw [List.mem_filter]
            constructor
            · rw [List.mem_map]
              exact ⟨sheetsRow now1 c, by simp, hcell⟩
            · exact hnempty
          exact List.mem_map_of_mem normKey hmemname
      rw [h2]
      simp [sheets_add_prospect, hdup]

/-- Witness for the amended C1 theorem: a case-and-whitespace variant of
a stored name is rejected by both stores. -/
theorem c1_trimmed_name_dup_witness :
    csv_add_prospect "t2" (csv_add_prospect "t1" [] pAlice).2 { name := some " ALICE  " } =
      (false, (csv_add_prospect "t1" [] pAlice).2) ∧
    sheets_add_prospect "t2" (sheets_add_prospect "t1" [] pAlice).2 { name := some " ALICE  " } =
      (false, (sheets_add_prospect "t1" [] pAlice).2) := by
  have h := c1_trimmed_name_dup "t1" "t2" [] [] pAlice { name := some " ALICE  " }
    (by decide) (by decide) rfl
  exact ⟨h.1 (by decide), h.2 (by decide)⟩


/-! ## Enrichment frame lemmas (for C2 and C10)

Each sub-step only writes its own target field(s): its result is the
input record with (at most) that field replaced. -/

theorem enrichEmailE (env : Env) (p e : Prospect) :
    ∃ v, enrichEmail env p e = { e with email := v } := by
  unfold enrichEmail
  repeat' split
  all_goals exact ⟨_, rfl⟩

theorem enrichEmail_skip (env : Env) (p e : Prospect) (h : blank e.email = false) :
    enrichEmail env p e = e := by
  unfold enrichEmail
  simp [h]

theorem enrichLinkedinE (env : Env) (p e : Prospect) :
    ∃ v, enrichLinkedin env p e = { e with linkedin_url := v } := by
  unfold enrichLinkedin
  repeat' split
  all_goals exact ⟨_, rfl⟩

theorem enrichLinkedin_skip (env : Env) (p e : Prospect) (h : blank e.linkedin_url = false) :
    enrichLinkedin env p e = e := by
  unfold enrichLinkedin
  simp [h]

theorem enrichGithubE (env : Env) (e : Prospect) :
    ∃ v, enrichGithub env e = { e with github_enrichment := v } := by
  unfold enrichGithub
  repeat' split
  all_goals exact ⟨_, rfl⟩

theorem enrichTwitterE (e : Prospect) :
    ∃ v, enrichTwitter e = { e with twitter_enrichment := v } := by
  unfold enrichTwitter
  repeat' split
  all_goals exact ⟨_, rfl⟩

theorem enrichRoleE (p e : Prospect) :
    ∃ cv tv, enrichRole p e = { e with current_company := cv, current_title := tv } := by
  unfold enrichRole
  rcases hr : infer_current_role p with ⟨c0, t0⟩
  simp only [hr]
  repeat' split
  all_goals exact ⟨_, _, rfl⟩

theorem enrichRole_skip (p e : Prospect) (h : blank e.current_company = false) :
    enrichRole p e = e := by
  unfold enrichRole
  simp [h]

/-- The composed enricher writes at most the six enrichment fields. -/
theorem enrich_decomp (env : Env) (p : Prospect) :
    ∃ em ln ge te cc ct, enrich_prospect env p =
      { p with
        email := em
        linkedin_url := ln
        github_enrichment := ge
        twitter_enrichment := te
        current_company := cc
        current_title := ct } := by
  obtain ⟨em, h1⟩ := enrichEmailE env p p
  obtain ⟨ln, h2⟩ := enrichLinkedinE env p (enrichEmail env p p)
  obtain ⟨ge, h3⟩ := enrichGithubE env (enrichLinkedin env p (enrichEmail env p p))
  obtain ⟨te, h4⟩ := enrichTwitterE
    (enrichGithub env (enrichLinkedin env p (enrichEmail env p p)))
  obtain ⟨cc, ct, h5⟩ := enrichRoleE p
    (enrichTwitter (enrichGithub env (enrichLinkedin env p (enrichEmail env p p))))
  refine ⟨em, ln, ge, te, cc, ct, ?_⟩
  unfold enrich_prospect
  rw [h5, h4, h3, h2, h1]

/-! ## Claim C2 -/

/-- C2 counterexample: enrichment overwrites an already-set
`current_title` when `current_company` is blank: the candidate's "CEO"
title is replaced by the role inferred from its signal text. -/
theorem c2_counterexample :
    pTitled.current_title = some "CEO" ∧
    (enrich_prospect envNone pTitled).current_title = some "Senior Engineer" := by decide

/-- C2 (amended): enrichment never touches name, source, location,
company, title, the social handles and URLs, bio, signals, or the score
fields; a nonblank email or LinkedIn URL is preserved; and when
`current_company` is nonblank, both `current_company` and
`current_title` are preserved.  (When `current_company` is blank,
`current_title` may be overwritten, and the github/twitter enrichment
sub-records are recomputed.) -/
theorem c2_enrich_fills_only (env : Env) (p : Prospect) :
    (enrich_prospect env p).name = p.name ∧
    (enrich_prospect env p).source = p.source ∧
    (enrich_prospect env p).location = p.location ∧
    (enrich_prospect env p).company = p.company ∧
    (enrich_prospect env p).title = p.title ∧
    (enrich_prospect env p).twitter_handle = p.twitter_handle ∧
    (enrich_prospect env p).twitter_url = p.twitter_url ∧
    (enrich_prospect env p).github_username = p.github_username ∧
    (enrich_prospect env p).github_url = p.github_url ∧
    (enrich_prospect env p).blog = p.blog ∧
    (enrich_prospect env p).website = p.website ∧
    (enrich_prospect env p).bio = p.bio ∧
    (enrich_prospect env p).signals = p.signals ∧
    (enrich_prospect env p).overall_score = p.overall_score ∧
    (enrich_prospect env p).founder_score = p.founder_score ∧
    (enrich_prospect env p).thesis_fit_score = p.thesis_fit_score ∧
    (enrich_prospect env p).timing_score = p.timing_score ∧
    (enrich_prospect env p).signal_strength_score = p.signal_strength_score ∧
    (enrich_prospect env p).priority = p.priority ∧
    (enrich_prospect env p).reasoning = p.reasoning ∧
    (blank p.email = false → (enrich_prospect env p).email = p.email) ∧
    (blank p.linkedin_url = false → (enrich_prospect env p).linkedin_url = p.linkedin_url) ∧
    (blank p.current_company = false →
      (enrich_prospect env p).current_company = p.current_company ∧
      (enrich_prospect env p).current_title = p.current_title) := by
  obtain ⟨em, ln, ge, te, cc, ct, hE⟩ := enrich_decomp env p
  refine ⟨?_, ?_, ?_, ?_, ?_, ?_, ?_, ?_, ?_, ?_, ?_, ?_, ?_, ?_, ?_, ?_, ?_, ?_, ?_, ?_,
    ?_, ?_, ?_⟩
  all_goals try (solve | rw [hE])
  · intro h
    have e1 : enrichEmail env p p = p := enrichEmail_skip env p p h
    obtain ⟨ln2, h2⟩ := enrichLinkedinE env p (enrichEmail env p p)
    obtain ⟨ge2, h3⟩ := enrichGithubE env (enrichLinkedin env p (enrichEmail env p p))
    obtain ⟨te2, h4⟩ := enrichTwitterE
      (enrichGithub env (enrichLinkedin env p (enrichEmail env p p)))
    obtain ⟨cc2, ct2, h5⟩ := enrichRoleE p
      (enrichTwitter (enrichGithub env (enrichLinkedin env p (enrichEmail env p p))))
    unfold enrich_prospect
    rw [h5, h4, h3, h2, e1]
  · intro h
    obtain ⟨em2, h1⟩ := enrichEmailE env p p
    have hb : blank (enrichEmail env p p).linkedin_url = false := by
      rw [h1]
      exact h
    have e2 : enrichLinkedin env p (enrichEmail env p p) = enrichEmail env p p :=
      enrichLinkedin_skip env p _ hb
    obtain ⟨ge2, h3⟩ := enrichGithubE env (enrichLinkedin env p (enrichEmail env p p))
    obtain ⟨te2, h4⟩ := enrichTwitterE
      (enrichGithub env (enrichLinkedin env p (enrichEmail env p p)))
    obtain ⟨cc2, ct2, h5⟩ := enrichRoleE p
      (enrichTwitter (enrichGithub env (enrichLinkedin env p (enrichEmail env p p))))
    unfold enrich_prospect
    rw [h5, h4, h3, e2, h1]
  · intro h
    obtain ⟨em2, h1⟩ := enrichEmailE env p p
    obtain ⟨ln2, h2⟩ := enrichLinkedinE env p (enrichEmail env p p)
    obtain ⟨ge2, h3⟩ := enrichGithubE env (enrichLinkedin env p (enrichEmail env p p))
    obtain ⟨te2, h4⟩ := enrichTwitterE
      (enrichGithub env (enrichLinkedin env p (enrichEmail env p p)))
    have hb : blank (enrichTwitter (enrichGithub env (enrichLinkedin env p
        (enrichEmail env p p)))).current_company = false := by
      rw [h4, h3, h2, h1]
      exact h
    have e5 : enrichRole p (enrichTwitter (enrichGithub env (enrichLinkedin env p
        (enrichEmail env p p)))) =
        enrichTwitter (enrichGithub env (enrichLinkedin env p (enrichEmail env p p))) :=
      enrichRole_skip p _ hb
    unfold enrich_prospect
    rw [e5, h4, h3, h2, h1]
    exact ⟨rfl, rfl⟩

/-- Witness for the amended C2 theorem at a fully pre-populated
candidate: email, LinkedIn, company/title and signals survive
enrichment unchanged. -/
theorem c2_enrich_fills_only_witness :
    (enrich_prospect envNone pFull).email = some "a@b.co" ∧
    (enrich_prospect envNone pFull).linkedin_url = some "L" ∧
    (enrich_prospect envNone pFull).current_company = some "Acme" ∧
    (enrich_prospect envNone pFull).current_title = some "CEO" ∧
    (enrich_prospect envNone pFull).signals = pFull.signals := by
  obtain ⟨h1, h2, h3, h4, h5, h6, h7, h8, h9, h10, h11, h12, h13, h14, h15, h16, h17,
    h18, h19, h20, h21, h22, h23⟩ := c2_enrich_fills_only envNone pFull
  exact ⟨h21 (by decide), h22 (by decide), (h23 (by decide)).1, (h23 (by decide)).2, h13⟩

/-! ## Claim C10 -/

/-- C10: enrichment writes role-inference results only under
`current_company` and `current_title` and never writes `company` or
`title`; the stored rows read the Company and Title cells from
`company` and `title`, so a candidate with both absent is stored with
empty Company and Title cells regardless of what role inference found. -/
theorem c10_role_keys_never_stored (env : Env) (p : Prospect) (s : ScoreResult)
    (now : String) :
    (enrich_prospect env p).company = p.company ∧
    (enrich_prospect env p).title = p.title ∧
    (p.company = none → p.title = none →
      (csvRow now (applyScore (enrich_prospect env p) s)).getD 4 "" = "" ∧
      (csvRow now (applyScore (enrich_prospect env p) s)).getD 5 "" = "" ∧
      (sheetsRow now (applyScore (enrich_prospect env p) s)).getD 4 (Cell.str "")
        = Cell.str "" ∧
      (sheetsRow now (applyScore (enrich_prospect env p) s)).getD 5 (Cell.str "")
        = Cell.str "") := by
  obtain ⟨em, ln, ge, te, cc, ct, hE⟩ := enrich_decomp env p
  have hc : (enrich_prospect env p).company = p.company := by rw [hE]
  have ht : (enrich_prospect env p).title = p.title := by rw [hE]
  refine ⟨hc, ht, ?_⟩
  intro h1 h2
  have hcsvC : (csvRow now (applyScore (enrich_prospect env p) s)).getD 4 ""
      = pyStr (enrich_prospect env p).company := rfl
  have hcsvT : (csvRow now (applyScore (enrich_prospect env p) s)).getD 5 ""
      = pyStr (enrich_prospect env p).title := rfl
  have hshC : (sheetsRow now (applyScore (enrich_prospect env p) s)).getD 4 (Cell.str "")
      = Cell.str (pyStr (enrich_prospect env p).company) := rfl
  have hshT : (sheetsRow now (applyScore (enrich_prospect env p) s)).getD 5 (Cell.str "")
      = Cell.str (pyStr (enrich_prospect env p).title) := rfl
  refine ⟨?_, ?_, ?_, ?_⟩
  · rw [hcsvC, hc, h1]
    rfl
  · rw [hcsvT, ht, h2]
    rfl
  · rw [hshC, hc, h1]
    rfl
  · rw [hshT, ht, h2]
    rfl

/-- Witness for C10: a candidate with no company or title whose signals
let role inference find one; the stored Company and Title cells are
still empty while `current_company` holds the inferred company. -/
theorem c10_role_keys_never_stored_witness :
    (csvRow "t" (applyScore (enrich_prospect envNone pRole) sHigh)).getD 4 "" = "" ∧
    (csvRow "t" (applyScore (enrich_prospect envNone pRole) sHigh)).getD 5 "" = "" ∧
    (enrich_prospect envNone pRole).current_company = some "Stripe" := by
  have h := (c10_role_keys_never_stored envNone pRole sHigh "t").2.2 rfl rfl
  exact ⟨h.1, h.2.1, by decide⟩

/-! ## Claim C7 -/

theorem tldMatch_iff : ∀ (cs : List Char) (k : Nat),
    tldMatch k cs = true ↔
      ∃ t rest, cs = t ++ rest ∧ t.all isTldChar = true ∧ 2 ≤ k + t.length ∧
        tailEnd rest = true := by
  intro cs
  induction cs with
  | nil =>
      intro k
      constructor
      · intro h
        refine ⟨[], [], rfl, rfl, ?_, rfl⟩
        simpa [tldMatch] using h
      · rintro ⟨t, rest, heq, hall, hlen, hend⟩
        obtain ⟨h1, h2⟩ := List.append_eq_nil.mp heq.symm
        subst h1
        simp only [tldMatch, decide_eq_true_eq]
        simp at hlen
        omega
  | cons c cs ih =>
      intro k
      simp only [tldMatch, Bool.or_eq_true, Bool.and_eq_true, decide_eq_true_eq]
      constructor
      · rintro (⟨hk, hend⟩ | ⟨hc, hm⟩)
        · exact ⟨[], c :: cs, rfl, rfl, by omega, hend⟩
        · obtain ⟨t, rest, heq, hall, hlen, hend⟩ := (ih (k + 1)).mp hm
          refine ⟨c :: t, rest, by rw [heq, List.cons_append], by simp [hall, hc], ?_, hend⟩
          simp
          omega
      · rintro ⟨t, rest, heq, hall, hlen, hend⟩
        cases t with
        | nil =>
            left
            rw [List.nil_append] at heq
            constructor
            · simp at hlen
              omega
            · rw [heq]
              exact hend
        | cons a t2 =>
            right
            rw [List.cons_append] at heq
            injection heq with h1 h2
            subst h1
            rw [List.all_cons, Bool.and_eq_true] at hall
            refine ⟨hall.1, (ih (k + 1)).mpr ⟨t2, rest, h2, hall.2, ?_, hend⟩⟩
            simp at hlen
            omega

theorem domMatch_iff : ∀ (cs : List Char) (k : Nat),
    domMatch k cs = true ↔
      ∃ d rest, cs = d ++ '.' :: rest ∧ d.all isDomChar = true ∧ 1 ≤ k + d.length ∧
        TldOk rest := by
  intro cs
  induction cs with
  | nil =>
      intro k
      simp only [domMatch, Bool.false_eq_true, false_iff]
      rintro ⟨d, rest, heq, -, -, -⟩
      have := congrArg List.length heq
      simp at this
      omega
  | cons c cs ih =>
      intro k
      simp only [domMatch, Bool.or_eq_true, Bool.and_eq_true, decide_eq_true_eq]
      constructor
      · rintro (⟨⟨hk, hdot⟩, ht⟩ | ⟨hc, hm⟩)
        · subst hdot
          refine ⟨[], cs, rfl, rfl, by omega, ?_⟩
          obtain ⟨t, rest, heq, hall, hlen, hend⟩ := (tldMatch_iff cs 0).mp ht
          exact ⟨t, rest, heq, hall, by omega, hend⟩
        · obtain ⟨d, rest, heq, hall, hlen, htld⟩ := (ih (k + 1)).mp hm
          refine ⟨c :: d, rest, by rw [heq, List.cons_append], by simp [hall, hc], ?_, htld⟩
          simp
          omega
      · rintro ⟨d, rest, heq, hall, hlen, htld⟩
        cases d with
        | nil =>
            rw [List.nil_append] at heq
            injection heq with h1 h2
            left
            simp at hlen
            refine ⟨⟨by omega, h1⟩, ?_⟩
            obtain ⟨t, r2, ha, hb, hc2, hd2⟩ := htld
            rw [h2]
            exact (tldMatch_iff rest 0).mpr ⟨t, r2, ha, hb, by omega, hd2⟩
        | cons a d2 =>
            right
            rw [List.cons_append] at heq
            injection heq with h1 h2
            subst h1
            rw [List.all_cons, Bool.and_eq_true] at hall
            refine ⟨hall.1, (ih (k + 1)).mpr ⟨d2, rest, h2, hall.2, ?_, htld⟩⟩
            simp at hlen
            omega

theorem localMatch_iff : ∀ (cs : List Char) (k : Nat),
    localMatch k cs = true ↔
      ∃ l rest, cs = l ++ '@' :: rest ∧ l.all isLocalChar = true ∧ 1 ≤ k + l.length ∧
        DomOk rest := by
  intro cs
  induction cs with
  | nil =>
      intro k
      simp only [localMatch, Bool.false_eq_true, false_iff]
      rintro ⟨l, rest, heq, -, -, -⟩
      have := congrArg List.length heq
      simp at this
      omega
  | cons c cs ih =>
      intro k
      simp only [localMatch, Bool.or_eq_true, Bool.and_eq_true, decide_eq_true_eq]
      constructor
      · rintro (⟨⟨hk, hat⟩, hdm⟩ | ⟨hc, hm⟩)
        · subst hat
          refine ⟨[], cs, rfl, rfl, by omega, ?_⟩
          obtain ⟨d, rest, heq, hall, hlen, htld⟩ := (domMatch_iff cs 0).mp hdm
          exact ⟨d, rest, heq, hall, by omega, htld⟩
        · obtain ⟨l, rest, heq, hall, hlen, hdm⟩ := (ih (k + 1)).mp hm
          refine ⟨c :: l, rest, by rw [heq, List.cons_append], by simp [hall, hc], ?_, hdm⟩
          simp
          omega
      · rintro ⟨l, rest, heq, hall, hlen, hdm⟩
        cases l with
        | nil =>
            rw [List.nil_append] at heq
            injection heq with h1 h2
            left
            simp at hlen
            refine ⟨⟨by omega, h1⟩, ?_⟩
            obtain ⟨d, r2, ha, hb, hc2, hd2⟩ := hdm
            rw [h2]
            exact (domMatch_iff rest 0).mpr ⟨d, r2, ha, hb, by omega, hd2⟩
        | cons a l2 =>
            right
            rw [List.cons_append] at heq
            injection heq with h1 h2
            subst h1
            rw [List.all_cons, Bool.and_eq_true] at hall
            refine ⟨hall.1, (ih (k + 1)).mpr ⟨l2, rest, h2, hall.2, ?_, hdm⟩⟩
            simp at hlen
            omega

/-- C7: validation rejects every address whose domain (the text after
the first `'@'`, lower-cased) is one of the six deny-list entries; any
other address is accepted exactly when it matches the source regex's
`local-part@domain.tld` shape. -/
theorem c7_email_validation (e : String) :
    (pyDomain e ∈ invalid_domains → is_valid_email e = false) ∧
    (pyDomain e ∉ invalid_domains → (is_valid_email e = true ↔ EmailShape e)) := by
  constructor
  · intro hd
    unfold is_valid_email
    by_cases hemp : e.toList.isEmpty = true
    · rw [if_pos hemp]
    · have hcont : invalid_domains.contains (pyDomain e) = true := List.elem_iff.mpr hd
      rw [if_neg hemp, if_pos hcont]
  · intro hd
    unfold is_valid_email
    by_cases hemp : e.toList.isEmpty = true
    · rw [if_pos hemp]
      constructor
      · intro h
        cases h
      · rintro ⟨l, rest, heq, -, -, -⟩
        rw [toListEmpty_iff] at hemp
        rw [hemp] at heq
        have := congrArg List.length heq
        simp at this
        exact absurd this (by omega)
    · have hcont : ¬ invalid_domains.contains (pyDomain e) = true := by
        intro hx
        exact hd (List.elem_iff.mp hx)
      rw [if_neg hemp, if_neg hcont]
      unfold emailRegexMatch EmailShape LocalOk
      constructor
      · intro h
        obtain ⟨l, rest, heq, hall, hlen, hdm⟩ := (localMatch_iff e.toList 0).mp h
        exact ⟨l, rest, heq, hall, by omega, hdm⟩
      · rintro ⟨l, rest, heq, hall, hlen, hdm⟩
        exact (localMatch_iff e.toList 0).mpr ⟨l, rest, heq, hall, by omega, hdm⟩

/-- Witness for C7: a deny-listed address is rejected, and a regular
address is accepted with its shape extracted from the theorem. -/
theorem c7_email_validation_witness :
    pyDomain "user@example.com" ∈ invalid_domains ∧
    is_valid_email "user@example.com" = false ∧
    pyDomain "jane.doe@acme.io" ∉ invalid_domains ∧
    is_valid_email "jane.doe@acme.io" = true ∧
    EmailShape "jane.doe@acme.io" := by
  refine ⟨by decide, (c7_email_validation "user@example.com").1 (by decide), by decide,
    by decide, ?_⟩
  exact ((c7_email_validation "jane.doe@acme.io").2 (by decide)).mp (by decide)

/-! ## Claim C8 -/

theorem dropPat_self : ∀ (p rest : List Char), dropPat p (p ++ rest) = some rest := by
  intro p
  induction p with
  | nil => intro rest; rfl
  | cons a as ih =>
      intro rest
      simp [dropPat, ih]

theorem dropPat_eq_append :
    ∀ (p l r : List Char), dropPat p l = some r → l = p ++ r := by
  intro p
  induction p with
  | nil =>
      intro l r h
      injection h with h
  | cons a as ih =>
      intro l r h
      cases l with
      | nil => cases h
      | cons b bs =>
          simp only [dropPat] at h
          by_cases hab : a = b
          · rw [if_pos hab] at h
            have h2 := ih bs r h
            rw [List.cons_append, h2, hab]
          · rw [if_neg hab] at h
            cases h

theorem takeSlug_append (t : List Char) (ht : ∀ c, t.head? = some c → isSlugChar c = false) :
    ∀ s : List Char, s.all isSlugChar = true → takeSlug (s ++ t) = s := by
  intro s
  induction s with
  | nil =>
      intro _
      cases t with
      | nil => rfl
      | cons c cs =>
          have := ht c rfl
          simp [takeSlug, this]
  | cons a as ih =>
      intro hs
      rw [List.all_cons, Bool.and_eq_true] at hs
      rw [List.cons_append]
      simp [takeSlug, hs.1, ih hs.2]

theorem findLinkedin_cons (c : Char) (cs : List Char) :
    findLinkedin (c :: cs) =
      match dropPat lnPat (c :: cs) with
      | some rest =>
          match takeSlug rest with
          | [] => findLinkedin cs
          | s => some s
      | none => findLinkedin cs := rfl

theorem findLinkedin_at (slug suf : List Char) (h0 : slug ≠ [])
    (hs : slug.all isSlugChar = true)
    (ht : ∀ c, suf.head? = some c → isSlugChar c = false) :
    findLinkedin (lnPat ++ (slug ++ suf)) = some slug := by
  have hln : lnPat = 'l' :: "inkedin.com/in/".toList := by decide
  have hd : dropPat lnPat ('l' :: ("inkedin.com/in/".toList ++ (slug ++ suf)))
      = some (slug ++ suf) := by
    rw [← List.cons_append, ← hln]
    exact dropPat_self lnPat (slug ++ suf)
  cases slug with
  | nil => exact absurd rfl h0
  | cons b bs =>
      rw [List.all_cons, Bool.and_eq_true] at hs
      have htk : takeSlug ((b :: bs) ++ suf) = b :: bs := by
        refine takeSlug_append suf ht (b :: bs) ?_
        rw [List.all_cons, Bool.and_eq_true]
        exact hs
      rw [hln, List.cons_append, findLinkedin_cons, hd]
      show (match takeSlug ((b :: bs) ++ suf) with
            | [] => findLinkedin ("inkedin.com/in/".toList ++ ((b :: bs) ++ suf))
            | s => some s) = some (b :: bs)
      rw [htk]

theorem findLinkedin_skip (tail : List Char) :
    ∀ xs : List Char,
      (∀ i, i < xs.length → dropPat lnPat ((xs ++ tail).drop i) = none) →
      findLinkedin (xs ++ tail) = findLinkedin tail := by
  intro xs
  induction xs with
  | nil => intro _; rfl
  | cons x xs ih =>
      intro h
      have h0 : dropPat lnPat (x :: (xs ++ tail)) = none := by
        have := h 0 (by simp)
        simpa using this
      rw [List.cons_append]
      simp only [findLinkedin, h0]
      exact ih (fun i hi => by
        have := h (i + 1) (by simp; omega)
        simpa using this)

theorem findLinkedin_none :
    ∀ cs : List Char,
      (¬ ∃ a c rest, cs = a ++ lnPat ++ c :: rest ∧ isSlugChar c = true) →
      findLinkedin cs = none := by
  intro cs
  induction cs with
  | nil => intro _; rfl
  | cons x xs ih =>
      intro h
      have hx : ¬ ∃ a c rest, xs = a ++ lnPat ++ c :: rest ∧ isSlugChar c = true := by
        rintro ⟨a, c, rest, heq, hc⟩
        refine h ⟨x :: a, c, rest, ?_, hc⟩
        rw [heq]
        simp
      cases hd : dropPat lnPat (x :: xs) with
      | none =>
          simp only [findLinkedin, hd]
          exact ih hx
      | some rest0 =>
          have hsplit : x :: xs = lnPat ++ rest0 := dropPat_eq_append lnPat (x :: xs) rest0 hd
          cases rest0 with
          | nil =>
              simp only [findLinkedin, hd, takeSlug]
              exact ih hx
          | cons y ys =>
              by_cases hy : isSlugChar y = true
              · refine absurd ⟨[], y, ys, ?_, hy⟩ h
                rw [hsplit]
                simp
              · have hy2 : isSlugChar y = false := by simpa using hy
                simp only [findLinkedin, hd, takeSlug, hy2, Bool.false_eq_true, if_false]
                exact ih hx

/-- C8: for text of the form `pre ++ "linkedin.com/in/" ++ slug ++ suf`
where the slug is a nonempty run of slug characters not continued by
`suf`, and no occurrence of the literal pattern starts inside `pre`,
extraction returns exactly the canonical URL of that first occurrence;
and on any text with no pattern occurrence it returns nothing. -/
theorem c8_linkedin_extraction :
    (∀ pre slug suf : String,
      slug.toList ≠ [] →
      slug.toList.all isSlugChar = true →
      (∀ c, suf.toList.head? = some c → isSlugChar c = false) →
      (∀ i, i < pre.toList.length →
        dropPat lnPat ((pre ++ "linkedin.com/in/" ++ slug ++ suf).toList.drop i) = none) →
      extract_linkedin_from_text (pre ++ "linkedin.com/in/" ++ slug ++ suf)
        = some ("https://www.linkedin.com/in/" ++ slug)) ∧
    (∀ t : String,
      (¬ ∃ a c rest, t.toList = a ++ lnPat ++ c :: rest ∧ isSlugChar c = true) →
      extract_linkedin_from_text t = none) := by
  constructor
  · intro pre slug suf h0 hs hhead hno
    have hT : (pre ++ "linkedin.com/in/" ++ slug ++ suf).toList
        = pre.toList ++ (lnPat ++ (slug.toList ++ suf.toList)) := by
      simp only [toList_append, lnPat, List.append_assoc]
    rw [hT] at hno
    have hfind : findLinkedin (pre ++ "linkedin.com/in/" ++ slug ++ suf).toList
        = some slug.toList := by
      rw [hT]
      rw [findLinkedin_skip (lnPat ++ (slug.toList ++ suf.toList)) pre.toList hno]
      exact findLinkedin_at slug.toList suf.toList h0 hs hhead
    have hemp : (pre ++ "linkedin.com/in/" ++ slug ++ suf).toList.isEmpty = false := by
      cases hc : (pre ++ "linkedin.com/in/" ++ slug ++ suf).toList with
      | nil => rw [hc] at hfind; cases hfind
      | cons a l => rfl
    unfold extract_linkedin_from_text
    rw [hemp, hfind]
    simp [mk_toList]
  · intro t hno
    unfold extract_linkedin_from_text
    cases hemp : t.toList.isEmpty with
    | true => rfl
    | false =>
        have hf := findLinkedin_none t.toList hno
        rw [hf]
        rfl

/-- Witness for C8: a LinkedIn mention inside surrounding text with a
protocol prefix, and a text with no occurrence. -/
theorem c8_linkedin_extraction_witness :
    extract_linkedin_from_text "see https://www.linkedin.com/in/jdoe today"
      = some "https://www.linkedin.com/in/jdoe" ∧
    extract_linkedin_from_text "hello" = none := by
  constructor
  · exact (c8_linkedin_extraction.1 "see https://www." "jdoe" " today" (by decide) (by decide)
      (by decide) (by decide))
  · refine c8_linkedin_extraction.2 "hello" ?_
    rintro ⟨a, c, rest, heq, -⟩
    have := congrArg List.length heq
    simp [lnPat] at this
    omega

end Sourcing
